import Mathlib

/-!
Verification of the FPS multiplayer WebSocket core of `nova-webgames-be`
(`app/api/v1/games/fps/websocket.py`): the in-memory connection registry,
room membership map, fan-out broadcast, and the per-connection command
processor.

The embedding mirrors the Python source:
* JSON scalar values are modelled by `JVal`; a parsed JSON object
  (a Python dict) is an association list `Message`.
* `ManagerState` carries the three dicts of `FPSConnectionManager`:
  `active_connections` (the set of connection ids holding a live
  transport; the transport handle itself is abstracted away),
  `connection_players` (connection id -> player id) and
  `rooms` (room id -> member connection ids).  Python dicts and sets
  become association lists / lists with unique keys; the operations
  below preserve that reading.
* Transport failures are modelled by a `fails` list: `send_json` to a
  connection in `fails` raises, to any other connection succeeds.
  A successful send is recorded as a `(recipient, message)` delivery.
-/

namespace FPSWS

/-- JSON scalar values as produced by `json.loads` (the command processor
only ever inspects scalar fields, and dict keys must be hashable). -/
inductive JVal where
  | jnull : JVal
  | jbool : Bool → JVal
  | jnum : Int → JVal
  | jstr : String → JVal
deriving DecidableEq, Repr

/-- Python truthiness of a JSON scalar (`if room_id:` etc.). -/
def JVal.truthy : JVal → Bool
  | .jnull => false
  | .jbool b => b
  | .jnum n => decide (n ≠ 0)
  | .jstr s => decide (s ≠ "")

/-- A parsed JSON object (Python dict), as a key/value association list. -/
abbrev Message := List (String × JVal)

/-- `message.get(k)`: `some v` when key `k` is present with value `v`,
`none` otherwise (Python's `dict.get` default). -/
def getField (m : Message) (k : String) : Option JVal :=
  match m with
  | [] => none
  | (k', v) :: rest => if k' = k then some v else getField rest k

/-- The state of `FPSConnectionManager`: its three dicts.  Room ids are
arbitrary (hashable) JSON values because the processor uses the inbound
`roomId` field directly as a dict key. -/
structure ManagerState where
  active_connections : List String
  connection_players : List (String × JVal)
  rooms : List (JVal × List String)
deriving DecidableEq, Repr

/-- Lookup of `self.rooms[room_id]` (`none` = key absent). -/
def lookupRoom (rid : JVal) : List (JVal × List String) → Option (List String)
  | [] => none
  | (r, ms) :: rest => if r = rid then some ms else lookupRoom rid rest

/-- Lookup of `self.connection_players.get(connection_id)`. -/
def lookupPlayer (cid : String) : List (String × JVal) → Option JVal
  | [] => none
  | (c, p) :: rest => if c = cid then some p else lookupPlayer cid rest

/-- Dict assignment `self.connection_players[cid] = pid`: overwrite the
existing entry or append a new one. -/
def setPlayer (cid : String) (pid : JVal) : List (String × JVal) → List (String × JVal)
  | [] => [(cid, pid)]
  | (c, p) :: rest =>
    if c = cid then (c, pid) :: rest else (c, p) :: setPlayer cid pid rest

/-- `FPSConnectionManager.join_room`: create the room's entry on first
join (`self.rooms[room_id] = set()`) and add the connection id to the
member set (`set.add`, a no-op when already a member). -/
def addToRoom (cid : String) (rid : JVal) : List (JVal × List String) → List (JVal × List String)
  | [] => [(rid, [cid])]
  | (r, ms) :: rest =>
    if r = rid then (r, if cid ∈ ms then ms else ms ++ [cid]) :: rest
    else (r, ms) :: addToRoom cid rid rest

/-- `FPSConnectionManager.leave_room`: when the room exists, `discard`
the connection id from its member set; otherwise do nothing. -/
def removeFromRoom (cid : String) (rid : JVal) : List (JVal × List String) → List (JVal × List String)
  | [] => []
  | (r, ms) :: rest =>
    if r = rid then (r, ms.filter (fun c => c ≠ cid)) :: rest
    else (r, ms) :: removeFromRoom cid rid rest

def join_room (cid : String) (rid : JVal) (s : ManagerState) : ManagerState :=
  { s with rooms := addToRoom cid rid s.rooms }

def leave_room (cid : String) (rid : JVal) (s : ManagerState) : ManagerState :=
  { s with rooms := removeFromRoom cid rid s.rooms }

/-- `FPSConnectionManager.disconnect`: delete the transport entry when
present; then, only when a player id is on record for the connection,
delete that record and `discard` the id from every room's member set. -/
def disconnect (cid : String) (s : ManagerState) : ManagerState :=
  let active := s.active_connections.filter (fun c => c ≠ cid)
  match lookupPlayer cid s.connection_players with
  | some _ =>
    { active_connections := active
      connection_players := s.connection_players.filter (fun p => p.1 ≠ cid)
      rooms := s.rooms.map (fun p => (p.1, p.2.filter (fun c => c ≠ cid))) }
  | none => { s with active_connections := active }

/-- The send loop of `broadcast_to_room`: iterate over the room's member
set, skip the excluded connection, skip ids without a live transport,
record a delivery on a successful `send_json`, and collect the ids whose
send raised into the `disconnected` list (second component). -/
def deliverLoop (msg : Message) (exclude : Option String) (fails active : List String) :
    List String → List (String × Message) × List String
  | [] => ([], [])
  | c :: rest =>
    let r := deliverLoop msg exclude fails active rest
    if some c = exclude then r
    else if c ∈ active then
      if c ∈ fails then (r.1, c :: r.2)
      else ((c, msg) :: r.1, r.2)
    else r

/-- `FPSConnectionManager.broadcast_to_room`: return immediately when the
room id has no entry; otherwise run the send loop and afterwards
`disconnect` every connection whose send raised.  Returns the new state
and the list of deliveries made. -/
def broadcast_to_room (msg : Message) (rid : JVal) (exclude : Option String)
    (fails : List String) (s : ManagerState) : ManagerState × List (String × Message) :=
  match lookupRoom rid s.rooms with
  | none => (s, [])
  | some ms =>
    let dl := deliverLoop msg exclude fails s.active_connections ms
    (dl.2.foldl (fun st c => disconnect c st) s, dl.1)

/-- One inbound frame as seen by the endpoint loop: either a body that
`json.loads` rejects, or the parsed object. -/
inductive Inbound where
  | malformed : Inbound
  | parsed : Message → Inbound
deriving DecidableEq, Repr

/-- One iteration of the message loop of `fps_websocket_endpoint`,
processing inbound frame `inb` for connection `cid`.  Returns the new
manager state and all messages sent, each paired with its recipient
(replies go to `cid` itself, broadcasts to room members).  Sends to the
processing connection itself are assumed to succeed; recipient sends
during a broadcast fail exactly on the connections in `fails`. -/
def handle_message (cid : String) (inb : Inbound) (fails : List String) (s : ManagerState) :
    ManagerState × List (String × Message) :=
  match inb with
  | .malformed =>
    (s, [(cid, [("type", .jstr "error"), ("message", .jstr "Invalid JSON format")])])
  | .parsed m =>
    let t := getField m "type"
    if t = some (.jstr "join_room") then
      match getField m "roomId", getField m "playerId" with
      | some rid, some pid =>
        if rid.truthy && pid.truthy then
          let s1 := join_room cid rid s
          let s2 := { s1 with connection_players := setPlayer cid pid s1.connection_players }
          let br := broadcast_to_room
            [("type", .jstr "player_joined"), ("playerId", pid), ("roomId", rid)]
            rid (some cid) fails s2
          (br.1, (cid, [("type", .jstr "room_joined"), ("roomId", rid)]) :: br.2)
        else (s, [])
      | _, _ => (s, [])
    else if t = some (.jstr "leave_room") then
      match getField m "roomId" with
      | some rid =>
        if rid.truthy then
          let pid := lookupPlayer cid s.connection_players
          let s1 := leave_room cid rid s
          let reply := (cid, [("type", .jstr "room_left"), ("roomId", rid)])
          match pid with
          | some p =>
            if p.truthy then
              let br := broadcast_to_room
                [("type", .jstr "player_left"), ("playerId", p), ("roomId", rid)]
                rid (some cid) fails s1
              (br.1, reply :: br.2)
            else (s1, [reply])
          | none => (s1, [reply])
        else (s, [])
      | none => (s, [])
    else if t = some (.jstr "game_state") then
      match getField m "roomId" with
      | some rid =>
        if rid.truthy then broadcast_to_room m rid (some cid) fails s
        else (s, [])
      | none => (s, [])
    else if t = some (.jstr "ping") then
      (s, [(cid, [("type", .jstr "pong")])])
    else (s, [])

/-- Membership of a connection in a room's member set (false when the
room id has no entry). -/
def inRoom (cid : String) (rid : JVal) (s : ManagerState) : Bool :=
  match lookupRoom rid s.rooms with
  | some ms => decide (cid ∈ ms)
  | none => false

/-- Whether a room id has an entry in the room map. -/
def roomHas (rid : JVal) (s : ManagerState) : Bool :=
  (lookupRoom rid s.rooms).isSome

/-- A `join_room` or `leave_room` call for a fixed (connection, room)
pair: `true` is join, `false` is leave. -/
def applyRoomOp (cid : String) (rid : JVal) (s : ManagerState) (op : Bool) : ManagerState :=
  if op then join_room cid rid s else leave_room cid rid s

/-! ### Lemmas about the association-list dictionaries -/

theorem lookupPlayer_filter_self (cid : String) (l : List (String × JVal)) :
    lookupPlayer cid (l.filter (fun p => p.1 ≠ cid)) = none := by
  induction l with
  | nil => rfl
  | cons hd tl ih =>
    obtain ⟨c, p⟩ := hd
    by_cases h : c = cid
    · simpa [h] using ih
    · simpa [List.filter, h, lookupPlayer] using ih

theorem lookupRoom_map_filter (rid : JVal) (cid : String) (l : List (JVal × List String)) :
    lookupRoom rid (l.map (fun p => (p.1, p.2.filter (fun c => c ≠ cid))))
      = (lookupRoom rid l).map (fun ms => ms.filter (fun c => c ≠ cid)) := by
  induction l with
  | nil => rfl
  | cons hd tl ih =>
    obtain ⟨r, ms⟩ := hd
    simp only [List.map_cons, lookupRoom]
    by_cases h : r = rid
    · simp [h]
    · rw [if_neg h, if_neg h, ih]

theorem lookupRoom_addToRoom_self (cid : String) (rid : JVal) (l : List (JVal × List String)) :
    ∃ ms, lookupRoom rid (addToRoom cid rid l) = some ms ∧ cid ∈ ms := by
  induction l with
  | nil => exact ⟨[cid], by simp [addToRoom, lookupRoom], by simp⟩
  | cons hd tl ih =>
    obtain ⟨r, ms⟩ := hd
    by_cases h : r = rid
    · by_cases hm : cid ∈ ms
      · exact ⟨ms, by simp [addToRoom, lookupRoom, h, hm], hm⟩
      · exact ⟨ms ++ [cid], by simp [addToRoom, lookupRoom, h, hm], by simp⟩
    · obtain ⟨ms', h1, h2⟩ := ih
      exact ⟨ms', by simpa [addToRoom, lookupRoom, h] using h1, h2⟩

theorem lookupRoom_addToRoom_isSome (cid : String) (rid r : JVal) (l : List (JVal × List String))
    (h : (lookupRoom r l).isSome = true) :
    (lookupRoom r (addToRoom cid rid l)).isSome = true := by
  induction l with
  | nil => simp [lookupRoom] at h
  | cons hd tl ih =>
    obtain ⟨r', ms⟩ := hd
    by_cases h1 : r' = rid
    · by_cases h2 : r' = r <;> simp_all [addToRoom, lookupRoom]
    · by_cases h2 : r' = r <;> simp_all [addToRoom, lookupRoom]

theorem lookupRoom_removeFromRoom (cid : String) (rid r : JVal) (l : List (JVal × List String)) :
    lookupRoom r (removeFromRoom cid rid l)
      = if r = rid then (lookupRoom r l).map (fun ms => ms.filter (fun c => c ≠ cid))
        else lookupRoom r l := by
  induction l with
  | nil => by_cases h : r = rid <;> simp [removeFromRoom, lookupRoom, h]
  | cons hd tl ih =>
    obtain ⟨r', ms⟩ := hd
    by_cases h1 : r' = rid
    · subst h1
      by_cases h2 : r = r'
      · subst h2; simp [removeFromRoom, lookupRoom]
      · have h3 : ¬ r' = r := fun hc => h2 hc.symm
        simp [removeFromRoom, lookupRoom, h2, h3]
    · by_cases h2 : r' = r
      · subst h2
        simp [removeFromRoom, lookupRoom, h1]
      · simp [removeFromRoom, lookupRoom, h1, h2, ih]

theorem filter_ne_of_not_mem (cid : String) (ms : List String) (h : cid ∉ ms) :
    ms.filter (fun c => c ≠ cid) = ms := by
  induction ms with
  | nil => rfl
  | cons hd tl ih =>
    simp only [List.mem_cons, not_or] at h
    have hne : ¬ hd = cid := fun hc => h.1 hc.symm
    rw [List.filter_cons_of_pos (by simpa using hne), ih h.2]

/-! ### Lemmas about `disconnect` and the broadcast send loop -/

theorem disconnect_active_mem (c cid : String) (s : ManagerState) :
    c ∈ (disconnect cid s).active_connections
      ↔ (c ∈ s.active_connections ∧ c ≠ cid) := by
  unfold disconnect
  cases lookupPlayer cid s.connection_players <;> simp [List.mem_filter]

theorem foldl_disconnect_active_mem (c : String) (ds : List String) (s : ManagerState) :
    c ∈ (ds.foldl (fun st x => disconnect x st) s).active_connections
      ↔ (c ∈ s.active_connections ∧ c ∉ ds) := by
  induction ds generalizing s with
  | nil => simp
  | cons d tl ih =>
    simp only [List.foldl_cons, ih, disconnect_active_mem, List.mem_cons]
    constructor
    · rintro ⟨⟨hc, hne⟩, hnt⟩
      exact ⟨hc, by simp [hne, hnt]⟩
    · rintro ⟨hc, hn⟩
      simp only [not_or] at hn
      exact ⟨⟨hc, hn.1⟩, hn.2⟩

theorem disconnect_rooms_isSome (rid : JVal) (cid : String) (s : ManagerState) :
    (lookupRoom rid (disconnect cid s).rooms).isSome
      = (lookupRoom rid s.rooms).isSome := by
  unfold disconnect
  cases lookupPlayer cid s.connection_players with
  | none => rfl
  | some p =>
    show (lookupRoom rid (s.rooms.map
        (fun p => (p.1, p.2.filter (fun c => c ≠ cid))))).isSome
      = (lookupRoom rid s.rooms).isSome
    rw [lookupRoom_map_filter]
    cases lookupRoom rid s.rooms <;> rfl

theorem foldl_disconnect_rooms_isSome (rid : JVal) (ds : List String) (s : ManagerState) :
    (lookupRoom rid (ds.foldl (fun st x => disconnect x st) s).rooms).isSome
      = (lookupRoom rid s.rooms).isSome := by
  induction ds generalizing s with
  | nil => rfl
  | cons d tl ih => simp only [List.foldl_cons, ih, disconnect_rooms_isSome]

theorem mem_deliverLoop_fst (msg : Message) (exclude : Option String)
    (fails active ms : List String) (c : String) (m' : Message) :
    (c, m') ∈ (deliverLoop msg exclude fails active ms).1
      ↔ (m' = msg ∧ c ∈ ms ∧ some c ≠ exclude ∧ c ∈ active ∧ c ∉ fails) := by
  induction ms with
  | nil => simp [deliverLoop]
  | cons hd tl ih =>
    simp only [deliverLoop]
    by_cases h1 : some hd = exclude
    · rw [if_pos h1, ih]
      constructor
      · rintro ⟨hm, hc, hex, hact, hnf⟩
        exact ⟨hm, List.mem_cons_of_mem _ hc, hex, hact, hnf⟩
      · rintro ⟨hm, hc, hex, hact, hnf⟩
        rcases List.mem_cons.mp hc with hc | hc
        · subst hc; exact absurd h1 hex
        · exact ⟨hm, hc, hex, hact, hnf⟩
    · rw [if_neg h1]
      by_cases h2 : hd ∈ active
      · rw [if_pos h2]
        by_cases h3 : hd ∈ fails
        · rw [if_pos h3, ih]
          constructor
          · rintro ⟨hm, hc, hex, hact, hnf⟩
            exact ⟨hm, List.mem_cons_of_mem _ hc, hex, hact, hnf⟩
          · rintro ⟨hm, hc, hex, hact, hnf⟩
            rcases List.mem_cons.mp hc with hc | hc
            · subst hc; exact absurd h3 hnf
            · exact ⟨hm, hc, hex, hact, hnf⟩
        · rw [if_neg h3]
          simp only [List.mem_cons, Prod.mk.injEq]
          rw [ih]
          constructor
          · rintro (⟨hc, hm⟩ | ⟨hm, hc, hex, hact, hnf⟩)
            · subst hc; subst hm; exact ⟨rfl, Or.inl rfl, h1, h2, h3⟩
            · exact ⟨hm, Or.inr hc, hex, hact, hnf⟩
          · rintro ⟨hm, hc | hc, hex, hact, hnf⟩
            · subst hc; exact Or.inl ⟨rfl, hm⟩
            · exact Or.inr ⟨hm, hc, hex, hact, hnf⟩
      · rw [if_neg h2, ih]
        constructor
        · rintro ⟨hm, hc, hex, hact, hnf⟩
          exact ⟨hm, List.mem_cons_of_mem _ hc, hex, hact, hnf⟩
        · rintro ⟨hm, hc, hex, hact, hnf⟩
          rcases List.mem_cons.mp hc with hc | hc
          · subst hc; exact absurd hact h2
          · exact ⟨hm, hc, hex, hact, hnf⟩

theorem mem_deliverLoop_snd (msg : Message) (exclude : Option String)
    (fails active ms : List String) (c : String) :
    c ∈ (deliverLoop msg exclude fails active ms).2
      ↔ (c ∈ ms ∧ some c ≠ exclude ∧ c ∈ active ∧ c ∈ fails) := by
  induction ms with
  | nil => simp [deliverLoop]
  | cons hd tl ih =>
    simp only [deliverLoop]
    by_cases h1 : some hd = exclude
    · rw [if_pos h1, ih]
      constructor
      · rintro ⟨hc, hex, hact, hf⟩
        exact ⟨List.mem_cons_of_mem _ hc, hex, hact, hf⟩
      · rintro ⟨hc, hex, hact, hf⟩
        rcases List.mem_cons.mp hc with hc | hc
        · subst hc; exact absurd h1 hex
        · exact ⟨hc, hex, hact, hf⟩
    · rw [if_neg h1]
      by_cases h2 : hd ∈ active
      · rw [if_pos h2]
        by_cases h3 : hd ∈ fails
        · rw [if_pos h3]
          simp only [List.mem_cons]
          rw [ih]
          constructor
          · rintro (hc | ⟨hc, hex, hact, hf⟩)
            · subst hc; exact ⟨Or.inl rfl, h1, h2, h3⟩
            · exact ⟨Or.inr hc, hex, hact, hf⟩
          · rintro ⟨hc | hc, hex, hact, hf⟩
            · subst hc; exact Or.inl rfl
            · exact Or.inr ⟨hc, hex, hact, hf⟩
        · rw [if_neg h3, ih]
          constructor
          · rintro ⟨hc, hex, hact, hf⟩
            exact ⟨List.mem_cons_of_mem _ hc, hex, hact, hf⟩
          · rintro ⟨hc, hex, hact, hf⟩
            rcases List.mem_cons.mp hc with hc | hc
            · subst hc; exact absurd hf h3
            · exact ⟨hc, hex, hact, hf⟩
      · rw [if_neg h2, ih]
        constructor
        · rintro ⟨hc, hex, hact, hf⟩
          exact ⟨List.mem_cons_of_mem _ hc, hex, hact, hf⟩
        · rintro ⟨hc, hex, hact, hf⟩
          rcases List.mem_cons.mp hc with hc | hc
          · subst hc; exact absurd hact h2
          · exact ⟨hc, hex, hact, hf⟩

theorem mem_broadcast_deliveries (msg : Message) (rid : JVal) (exclude : Option String)
    (fails : List String) (s : ManagerState) (c : String) (m' : Message) :
    (c, m') ∈ (broadcast_to_room msg rid exclude fails s).2
      ↔ (m' = msg ∧ (∃ ms, lookupRoom rid s.rooms = some ms ∧ c ∈ ms)
          ∧ some c ≠ exclude ∧ c ∈ s.active_connections ∧ c ∉ fails) := by
  unfold broadcast_to_room
  cases h : lookupRoom rid s.rooms with
  | none => simp [h]
  | some ms =>
    simp only [h, mem_deliverLoop_fst]
    constructor
    · rintro ⟨hm, hc, hex, hact, hnf⟩
      exact ⟨hm, ⟨ms, rfl, hc⟩, hex, hact, hnf⟩
    · rintro ⟨hm, ⟨ms', hms', hc⟩, hex, hact, hnf⟩
      cases Option.some.inj (hms' ▸ rfl : some ms = some ms') with
      | refl => exact ⟨hm, hc, hex, hact, hnf⟩

theorem broadcast_removes_failed (msg : Message) (rid : JVal) (exclude : Option String)
    (fails : List String) (s : ManagerState) (ms : List String) (c : String)
    (hms : lookupRoom rid s.rooms = some ms) (hc : c ∈ ms) (hex : some c ≠ exclude)
    (hact : c ∈ s.active_connections) (hf : c ∈ fails) :
    c ∉ (broadcast_to_room msg rid exclude fails s).1.active_connections := by
  unfold broadcast_to_room
  rw [hms]
  intro hmem
  rw [foldl_disconnect_active_mem] at hmem
  exact hmem.2 ((mem_deliverLoop_snd msg exclude fails s.active_connections ms c).mpr
    ⟨hc, hex, hact, hf⟩)

theorem broadcast_rooms_isSome (msg : Message) (rid2 rid : JVal) (exclude : Option String)
    (fails : List String) (s : ManagerState)
    (h : (lookupRoom rid s.rooms).isSome = true) :
    (lookupRoom rid (broadcast_to_room msg rid2 exclude fails s).1.rooms).isSome = true := by
  unfold broadcast_to_room
  cases h2 : lookupRoom rid2 s.rooms with
  | none => exact h
  | some ms => rw [foldl_disconnect_rooms_isSome]; exact h

/-! ### Lemmas about room join/leave -/

theorem addToRoom_idem (cid : String) (rid : JVal) (l : List (JVal × List String)) :
    addToRoom cid rid (addToRoom cid rid l) = addToRoom cid rid l := by
  induction l with
  | nil => simp [addToRoom]
  | cons hd tl ih =>
    obtain ⟨r, ms⟩ := hd
    by_cases h : r = rid
    · by_cases hm : cid ∈ ms
      · simp [addToRoom, h, hm]
      · simp [addToRoom, h, hm]
    · simp [addToRoom, h, ih]

theorem removeFromRoom_not_mem (cid : String) (rid : JVal) (l : List (JVal × List String))
    (h : ∀ ms, lookupRoom rid l = some ms → cid ∉ ms) :
    removeFromRoom cid rid l = l := by
  induction l with
  | nil => rfl
  | cons hd tl ih =>
    obtain ⟨r, ms⟩ := hd
    by_cases h1 : r = rid
    · subst h1
      have hnm : cid ∉ ms := h ms (by simp [lookupRoom])
      unfold removeFromRoom
      rw [if_pos rfl, filter_ne_of_not_mem cid ms hnm]
    · have h2 : ∀ ms', lookupRoom rid tl = some ms' → cid ∉ ms' := by
        intro ms' hms'
        exact h ms' (by simpa [lookupRoom, h1] using hms')
      simp [removeFromRoom, h1, ih h2]

theorem removeFromRoom_idem (cid : String) (rid : JVal) (l : List (JVal × List String)) :
    removeFromRoom cid rid (removeFromRoom cid rid l) = removeFromRoom cid rid l := by
  induction l with
  | nil => rfl
  | cons hd tl ih =>
    obtain ⟨r, ms⟩ := hd
    by_cases h : r = rid
    · have hnm : cid ∉ ms.filter (fun c => c ≠ cid) := by
        simp [List.mem_filter]
      simp [removeFromRoom, h, filter_ne_of_not_mem cid _ hnm]
    · simp [removeFromRoom, h, ih]

theorem join_room_idem (cid : String) (rid : JVal) (s : ManagerState) :
    join_room cid rid (join_room cid rid s) = join_room cid rid s := by
  have h : join_room cid rid (join_room cid rid s)
      = { s with rooms := addToRoom cid rid (addToRoom cid rid s.rooms) } := rfl
  rw [h, addToRoom_idem]
  rfl

theorem leave_room_idem (cid : String) (rid : JVal) (s : ManagerState) :
    leave_room cid rid (leave_room cid rid s) = leave_room cid rid s := by
  have h : leave_room cid rid (leave_room cid rid s)
      = { s with rooms := removeFromRoom cid rid (removeFromRoom cid rid s.rooms) } := rfl
  rw [h, removeFromRoom_idem]
  rfl

theorem inRoom_join_self (cid : String) (rid : JVal) (s : ManagerState) :
    inRoom cid rid (join_room cid rid s) = true := by
  unfold inRoom join_room
  obtain ⟨ms, h1, h2⟩ := lookupRoom_addToRoom_self cid rid s.rooms
  simp only [h1]
  exact decide_eq_true h2

theorem inRoom_leave_self (cid : String) (rid : JVal) (s : ManagerState) :
    inRoom cid rid (leave_room cid rid s) = false := by
  unfold inRoom leave_room
  rw [show ({ s with rooms := removeFromRoom cid rid s.rooms } : ManagerState).rooms
      = removeFromRoom cid rid s.rooms from rfl]
  rw [lookupRoom_removeFromRoom, if_pos rfl]
  cases lookupRoom rid s.rooms with
  | none => rfl
  | some ms => simp [List.mem_filter]

theorem leave_room_of_not_inRoom (cid : String) (rid : JVal) (s : ManagerState)
    (h : inRoom cid rid s = false) : leave_room cid rid s = s := by
  have h2 : ∀ ms, lookupRoom rid s.rooms = some ms → cid ∉ ms := by
    intro ms hms
    unfold inRoom at h
    rw [hms] at h
    simpa using h
  have h3 : leave_room cid rid s = { s with rooms := removeFromRoom cid rid s.rooms } := rfl
  rw [h3, removeFromRoom_not_mem cid rid s.rooms h2]

theorem inRoom_applyRoomOp (cid : String) (rid : JVal) (s : ManagerState) (op : Bool) :
    inRoom cid rid (applyRoomOp cid rid s op) = op := by
  cases op
  · simpa [applyRoomOp] using inRoom_leave_self cid rid s
  · simpa [applyRoomOp] using inRoom_join_self cid rid s

/-! ### Lemmas about `disconnect` idempotence -/

theorem lookupPlayer_disconnect_self (cid : String) (s : ManagerState) :
    lookupPlayer cid (disconnect cid s).connection_players = none := by
  unfold disconnect
  cases h : lookupPlayer cid s.connection_players with
  | none => exact h
  | some p => exact lookupPlayer_filter_self cid _

theorem disconnect_of_no_player (cid : String) (s : ManagerState)
    (h : lookupPlayer cid s.connection_players = none) :
    disconnect cid s
      = { s with active_connections := s.active_connections.filter (fun c => c ≠ cid) } := by
  unfold disconnect
  rw [h]

theorem lookupRoom_removeFromRoom_isSome (cid : String) (rid r : JVal)
    (l : List (JVal × List String)) (h : (lookupRoom r l).isSome = true) :
    (lookupRoom r (removeFromRoom cid rid l)).isSome = true := by
  rw [lookupRoom_removeFromRoom]
  by_cases hr : r = rid
  · rw [if_pos hr]
    cases hl : lookupRoom r l with
    | none => rw [hl] at h; simp at h
    | some ms => rfl
  · rw [if_neg hr]; exact h

theorem broadcast_not_to_excluded (msg : Message) (rid : JVal) (c : String)
    (fails : List String) (s : ManagerState) (m' : Message) :
    (c, m') ∉ (broadcast_to_room msg rid (some c) fails s).2 := by
  intro h
  rcases (mem_broadcast_deliveries msg rid (some c) fails s c m').mp h with
    ⟨_, _, hex, _, _⟩
  exact hex rfl

theorem broadcast_deliveries_active (msg : Message) (rid : JVal) (exclude : Option String)
    (fails : List String) (s : ManagerState) (c : String) (m' : Message)
    (h : (c, m') ∈ (broadcast_to_room msg rid exclude fails s).2) :
    c ∈ s.active_connections :=
  ((mem_broadcast_deliveries msg rid exclude fails s c m').mp h).2.2.2.1

/-! ### Lemmas about the command processor -/

theorem handle_rooms_isSome (cid : String) (inb : Inbound) (fails : List String)
    (s : ManagerState) (rid : JVal) (h : (lookupRoom rid s.rooms).isSome = true) :
    (lookupRoom rid (handle_message cid inb fails s).1.rooms).isSome = true := by
  cases inb with
  | malformed => exact h
  | parsed m =>
    simp only [handle_message]
    split
    · -- join_room
      split
      · split
        · exact broadcast_rooms_isSome _ _ _ _ _ _
            (lookupRoom_addToRoom_isSome _ _ _ _ h)
        · exact h
      · exact h
    · split
      · -- leave_room
        split
        · split
          · split
            · split
              · exact broadcast_rooms_isSome _ _ _ _ _ _
                  (lookupRoom_removeFromRoom_isSome _ _ _ _ h)
              · exact lookupRoom_removeFromRoom_isSome _ _ _ _ h
            · exact lookupRoom_removeFromRoom_isSome _ _ _ _ h
          · exact h
        · exact h
      · split
        · -- game_state
          split
          · split
            · exact broadcast_rooms_isSome _ _ _ _ _ _ h
            · exact h
          · exact h
        · split
          · exact h
          · exact h

theorem handle_sender_reply_types (cid : String) (inb : Inbound) (fails : List String)
    (s : ManagerState) (m' : Message)
    (h : (cid, m') ∈ (handle_message cid inb fails s).2) :
    getField m' "type" = some (.jstr "error")
    ∨ getField m' "type" = some (.jstr "room_joined")
    ∨ getField m' "type" = some (.jstr "room_left")
    ∨ getField m' "type" = some (.jstr "pong") := by
  cases inb with
  | malformed =>
    simp only [handle_message, List.mem_singleton, Prod.mk.injEq] at h
    rw [h.2]
    exact Or.inl rfl
  | parsed m =>
    simp only [handle_message] at h
    split at h
    · -- join_room
      split at h
      · split at h
        · rcases List.mem_cons.mp h with h | h
          · rw [(Prod.mk.injEq _ _ _ _).mp h |>.2]
            exact Or.inr (Or.inl rfl)
          · exact absurd h (broadcast_not_to_excluded _ _ _ _ _ _)
        · simp at h
      · simp at h
    · split at h
      · -- leave_room
        split at h
        · split at h
          · split at h
            · split at h
              · rcases List.mem_cons.mp h with h | h
                · rw [(Prod.mk.injEq _ _ _ _).mp h |>.2]
                  exact Or.inr (Or.inr (Or.inl rfl))
                · exact absurd h (broadcast_not_to_excluded _ _ _ _ _ _)
              · rcases List.mem_singleton.mp h with h
                rw [(Prod.mk.injEq _ _ _ _).mp h |>.2]
                exact Or.inr (Or.inr (Or.inl rfl))
            · rcases List.mem_singleton.mp h with h
              rw [(Prod.mk.injEq _ _ _ _).mp h |>.2]
              exact Or.inr (Or.inr (Or.inl rfl))
          · simp at h
        · simp at h
      · split at h
        · -- game_state
          split at h
          · split at h
            · exact absurd h (broadcast_not_to_excluded _ _ _ _ _ _)
            · simp at h
          · simp at h
        · split at h
          · rcases List.mem_singleton.mp h with h
            rw [(Prod.mk.injEq _ _ _ _).mp h |>.2]
            exact Or.inr (Or.inr (Or.inr rfl))
          · simp at h

theorem handle_game_state (cid : String) (m : Message) (rid : JVal)
    (fails : List String) (s : ManagerState)
    (ht : getField m "type" = some (.jstr "game_state"))
    (hr : getField m "roomId" = some rid) (htr : rid.truthy = true) :
    handle_message cid (.parsed m) fails s = broadcast_to_room m rid (some cid) fails s := by
  simp [handle_message, ht, hr, htr]

theorem handle_leave_room (cid : String) (m : Message) (rid p : JVal)
    (fails : List String) (s : ManagerState)
    (ht : getField m "type" = some (.jstr "leave_room"))
    (hr : getField m "roomId" = some rid) (htr : rid.truthy = true)
    (hp : lookupPlayer cid s.connection_players = some p) (hpt : p.truthy = true) :
    handle_message cid (.parsed m) fails s
      = ((broadcast_to_room
            [("type", .jstr "player_left"), ("playerId", p), ("roomId", rid)]
            rid (some cid) fails (leave_room cid rid s)).1,
          (cid, [("type", .jstr "room_left"), ("roomId", rid)])
            :: (broadcast_to_room
                  [("type", .jstr "player_left"), ("playerId", p), ("roomId", rid)]
                  rid (some cid) fails (leave_room cid rid s)).2) := by
  simp [handle_message, ht, hr, htr, hp, hpt]

/-! ### The claims -/

/-- C1 (counterexample): the claim as stated fails.  In the state where
connection `c1` is a member of room `r1` but has no player id on record,
`disconnect c1` leaves `c1` dangling in `r1`'s member set, because the
room purge in `FPSConnectionManager.disconnect` runs only under the
`connection_id in self.connection_players` guard. -/
theorem disconnect_dangling_room_cex :
    ∃ ms, lookupRoom (JVal.jstr "r1")
        (disconnect "c1" ⟨["c1"], [], [(JVal.jstr "r1", ["c1"])]⟩).rooms = some ms
      ∧ "c1" ∈ ms :=
  ⟨["c1"], by decide, by decide⟩

/-- C1 (amended): in every state where each room containing the
connection also has a player id on record for it — an invariant of all
states reachable through the command processor, since `join_room`
commands record the player id together with the membership — running
`disconnect` on a connection id leaves that id absent from every room's
member set. -/
theorem disconnect_purges_rooms_of_registered (cid : String) (s : ManagerState)
    (h : ∀ rid ms, lookupRoom rid s.rooms = some ms → cid ∈ ms →
        (lookupPlayer cid s.connection_players).isSome = true) :
    ∀ rid ms, lookupRoom rid (disconnect cid s).rooms = some ms → cid ∉ ms := by
  intro rid ms hms hcm
  cases hp : lookupPlayer cid s.connection_players with
  | some p =>
    have hd : disconnect cid s =
        { active_connections := s.active_connections.filter (fun c => c ≠ cid)
          connection_players := s.connection_players.filter (fun q => q.1 ≠ cid)
          rooms := s.rooms.map (fun q => (q.1, q.2.filter (fun c => c ≠ cid))) } := by
      unfold disconnect
      rw [hp]
    rw [hd] at hms
    dsimp only at hms
    rw [lookupRoom_map_filter] at hms
    cases hl : lookupRoom rid s.rooms with
    | none => rw [hl] at hms; simp at hms
    | some ms0 =>
      rw [hl] at hms
      have : ms = ms0.filter (fun c => c ≠ cid) := by
        simpa using hms.symm
      rw [this] at hcm
      simp [List.mem_filter] at hcm
  | none =>
    have hd := disconnect_of_no_player cid s hp
    rw [hd] at hms
    dsimp only at hms
    have := h rid ms hms hcm
    rw [hp] at this
    simp at this

/-- C1 (witness): a concrete joined-and-registered state in which
`disconnect` does purge the connection from the room. -/
theorem disconnect_purges_rooms_of_registered_w :
    "a" ∉ (["a", "b"] : List String).filter (fun c => c ≠ "a") ∧
    ∀ ms, lookupRoom (JVal.jstr "r")
        (disconnect "a" ⟨["a", "b"], [("a", JVal.jstr "pa")],
          [(JVal.jstr "r", ["a", "b"])]⟩).rooms = some ms → "a" ∉ ms := by
  refine ⟨by decide, ?_⟩
  intro ms hms
  exact disconnect_purges_rooms_of_registered "a"
    ⟨["a", "b"], [("a", JVal.jstr "pa")], [(JVal.jstr "r", ["a", "b"])]⟩
    (fun rid ms' _ _ => by decide) (JVal.jstr "r") ms hms

/-- C2: during a broadcast to a room whose member set contains a failing
recipient `cf`, (1) every other live, non-failing, non-excluded member
still receives the event, (2) the failed connection is removed from the
registry, and (3) no subsequent broadcast from the resulting state
delivers anything to the failed connection.  The transport error is
absorbed by the loop (the function is total), never aborting delivery. -/
theorem broadcast_failure_isolation (msg : Message) (rid : JVal) (exclude : Option String)
    (fails : List String) (s : ManagerState) (ms : List String) (cf : String)
    (hms : lookupRoom rid s.rooms = some ms)
    (hcf : cf ∈ ms) (hex : some cf ≠ exclude)
    (hact : cf ∈ s.active_connections) (hf : cf ∈ fails) :
    (∀ c, c ∈ ms → some c ≠ exclude → c ∈ s.active_connections → c ∉ fails →
        (c, msg) ∈ (broadcast_to_room msg rid exclude fails s).2)
    ∧ cf ∉ (broadcast_to_room msg rid exclude fails s).1.active_connections
    ∧ (∀ msg2 rid2 ex2 fails2 m',
        (cf, m') ∉ (broadcast_to_room msg2 rid2 ex2 fails2
          (broadcast_to_room msg rid exclude fails s).1).2) := by
  refine ⟨?_, ?_, ?_⟩
  · intro c hc hcex hcact hcnf
    exact (mem_broadcast_deliveries msg rid exclude fails s c msg).mpr
      ⟨rfl, ⟨ms, hms, hc⟩, hcex, hcact, hcnf⟩
  · exact broadcast_removes_failed msg rid exclude fails s ms cf hms hcf hex hact hf
  · intro msg2 rid2 ex2 fails2 m' hmem
    exact broadcast_removes_failed msg rid exclude fails s ms cf hms hcf hex hact hf
      (broadcast_deliveries_active msg2 rid2 ex2 fails2 _ cf m' hmem)

/-- C2 (witness): room `r` has members `a`, `b`, `c`; broadcasting with
`b`'s transport failing still delivers to `c`. -/
theorem broadcast_failure_isolation_w :
    ("c", [("type", JVal.jstr "game_state")])
      ∈ (broadcast_to_room [("type", JVal.jstr "game_state")] (JVal.jstr "r") (some "a")
          ["b"]
          ⟨["a", "b", "c"], [("a", JVal.jstr "pa"), ("b", JVal.jstr "pb"), ("c", JVal.jstr "pc")],
            [(JVal.jstr "r", ["a", "b", "c"])]⟩).2 :=
  (broadcast_failure_isolation [("type", JVal.jstr "game_state")] (JVal.jstr "r") (some "a")
      ["b"]
      ⟨["a", "b", "c"], [("a", JVal.jstr "pa"), ("b", JVal.jstr "pb"), ("c", JVal.jstr "pc")],
        [(JVal.jstr "r", ["a", "b", "c"])]⟩
      ["a", "b", "c"] "b"
      (by decide) (by decide) (by decide) (by decide) (by decide)).1
    "c" (by decide) (by decide) (by decide) (by decide)

/-- C4: broadcasting to a room id with zero subscribers — the id has no
entry in the room map, or its member set is empty — returns normally,
delivers to no connection, and leaves the whole manager state
unchanged. -/
theorem broadcast_zero_subscribers_noop (msg : Message) (rid : JVal)
    (exclude : Option String) (fails : List String) (s : ManagerState)
    (h : lookupRoom rid s.rooms = none ∨ lookupRoom rid s.rooms = some []) :
    broadcast_to_room msg rid exclude fails s = (s, []) := by
  rcases h with h | h
  · unfold broadcast_to_room
    rw [h]
  · unfold broadcast_to_room
    rw [h]
    rfl

/-- C4 (witness): broadcast to a never-seen room id in a concrete state. -/
theorem broadcast_zero_subscribers_noop_w :
    broadcast_to_room [("type", JVal.jstr "x")] (JVal.jstr "ghost") none []
        ⟨["a"], [], [(JVal.jstr "r", [])]⟩
      = (⟨["a"], [], [(JVal.jstr "r", [])]⟩, []) :=
  broadcast_zero_subscribers_noop [("type", JVal.jstr "x")] (JVal.jstr "ghost") none []
    ⟨["a"], [], [(JVal.jstr "r", [])]⟩ (Or.inl (by decide))

/-- C5: `disconnect` is idempotent — running it twice on any connection
id, from any state, yields exactly the state of running it once, so a
second removal of an already-removed id does not crash and alters
nothing (no other connection's registry entry, player record, or room
membership changes). -/
theorem disconnect_idempotent (cid : String) (s : ManagerState) :
    disconnect cid (disconnect cid s) = disconnect cid s := by
  rw [disconnect_of_no_player cid _ (lookupPlayer_disconnect_self cid s)]
  have hact : cid ∉ (disconnect cid s).active_connections := fun hm =>
    ((disconnect_active_mem cid cid s).mp hm).2 rfl
  rw [filter_ne_of_not_mem cid _ hact]

/-- C6: `join_room` is an idempotent add and `leave_room` an idempotent
remove whose application to a non-member is a no-op (not an error), and
after any sequence of join/leave calls for a fixed (connection, room)
pair the membership state is the one implied by the last call. -/
theorem join_leave_idempotent_last_call_wins (cid : String) (rid : JVal)
    (s : ManagerState) (ops : List Bool) (op : Bool)
    (h : inRoom cid rid s = false) :
    join_room cid rid (join_room cid rid s) = join_room cid rid s
    ∧ leave_room cid rid (leave_room cid rid s) = leave_room cid rid s
    ∧ leave_room cid rid s = s
    ∧ inRoom cid rid (List.foldl (applyRoomOp cid rid) s (ops ++ [op])) = op := by
  refine ⟨join_room_idem cid rid s, leave_room_idem cid rid s,
    leave_room_of_not_inRoom cid rid s h, ?_⟩
  rw [List.foldl_append]
  simp only [List.foldl_cons, List.foldl_nil]
  exact inRoom_applyRoomOp cid rid _ op

/-- C6 (witness): concrete run of join, leave, join, join for the same
pair ends in membership; the non-member leave hypothesis holds in the
empty state. -/
theorem join_leave_idempotent_last_call_wins_w :
    inRoom "a" (JVal.jstr "r")
        (List.foldl (applyRoomOp "a" (JVal.jstr "r")) ⟨["a"], [], []⟩
          ([true, false, true] ++ [true])) = true :=
  (join_leave_idempotent_last_call_wins "a" (JVal.jstr "r") ⟨["a"], [], []⟩
      [true, false, true] true (by decide)).2.2.2

/-- C3: an inbound `game_state` message with a truthy `roomId` is relayed
as the very same message (all fields and values unchanged, still tagged
`game_state`) to every live, non-failing member of that room other than
the sender; the sender receives no delivery at all from the relay, and —
for any inbound frame whatsoever — every message the processor sends to
the sending connection is one of the direct replies (`error`,
`room_joined`, `room_left`, `pong`), so the sender never receives its own
relayed `game_state`, `player_joined`, or `player_left` echo. -/
theorem game_state_verbatim_relay (cid : String) (m : Message) (rid : JVal)
    (fails : List String) (s : ManagerState) (ms : List String)
    (ht : getField m "type" = some (.jstr "game_state"))
    (hr : getField m "roomId" = some rid) (htr : rid.truthy = true)
    (hms : lookupRoom rid s.rooms = some ms) :
    (∀ c, c ∈ ms → c ≠ cid → c ∈ s.active_connections → c ∉ fails →
        (c, m) ∈ (handle_message cid (.parsed m) fails s).2)
    ∧ (∀ m', (cid, m') ∉ (handle_message cid (.parsed m) fails s).2)
    ∧ (∀ inb m', (cid, m') ∈ (handle_message cid inb fails s).2 →
        getField m' "type" = some (.jstr "error")
        ∨ getField m' "type" = some (.jstr "room_joined")
        ∨ getField m' "type" = some (.jstr "room_left")
        ∨ getField m' "type" = some (.jstr "pong")) := by
  refine ⟨?_, ?_, ?_⟩
  · intro c hc hcne hcact hcnf
    rw [handle_game_state cid m rid fails s ht hr htr]
    exact (mem_broadcast_deliveries m rid (some cid) fails s c m).mpr
      ⟨rfl, ⟨ms, hms, hc⟩, fun hcon => hcne (Option.some.inj hcon), hcact, hcnf⟩
  · intro m'
    rw [handle_game_state cid m rid fails s ht hr htr]
    exact broadcast_not_to_excluded m rid cid fails s m'
  · intro inb m' hmem
    exact handle_sender_reply_types cid inb fails s m' hmem

/-- C3 (witness): `a` sends a `game_state` with an extra field into room
`r`; member `b` receives the identical message. -/
theorem game_state_verbatim_relay_w :
    ("b", [("type", JVal.jstr "game_state"), ("roomId", JVal.jstr "r"), ("x", JVal.jnum 1)])
      ∈ (handle_message "a"
          (.parsed [("type", JVal.jstr "game_state"), ("roomId", JVal.jstr "r"),
            ("x", JVal.jnum 1)]) []
          ⟨["a", "b"], [("a", JVal.jstr "pa"), ("b", JVal.jstr "pb")],
            [(JVal.jstr "r", ["a", "b"])]⟩).2 :=
  (game_state_verbatim_relay "a"
      [("type", JVal.jstr "game_state"), ("roomId", JVal.jstr "r"), ("x", JVal.jnum 1)]
      (JVal.jstr "r") []
      ⟨["a", "b"], [("a", JVal.jstr "pa"), ("b", JVal.jstr "pb")],
        [(JVal.jstr "r", ["a", "b"])]⟩
      ["a", "b"] (by decide) (by decide) (by decide) (by decide)).1
    "b" (by decide) (by decide) (by decide) (by decide)

/-- C7: a well-formed JSON message whose `type` is none of the recognized
commands (including a missing or non-string `type`) produces no state
change, no reply of any kind, no crash, and no disconnect — and a
subsequent `ping` on the same connection is still answered with `pong`. -/
theorem unknown_type_silently_ignored (cid : String) (m : Message) (fails : List String)
    (s : ManagerState)
    (h1 : getField m "type" ≠ some (.jstr "join_room"))
    (h2 : getField m "type" ≠ some (.jstr "leave_room"))
    (h3 : getField m "type" ≠ some (.jstr "game_state"))
    (h4 : getField m "type" ≠ some (.jstr "ping")) :
    handle_message cid (.parsed m) fails s = (s, [])
    ∧ handle_message cid (.parsed [("type", .jstr "ping")]) fails s
        = (s, [(cid, [("type", .jstr "pong")])]) := by
  constructor
  · simp [handle_message, h1, h2, h3, h4]
  · simp [handle_message, getField]

/-- C7 (witness): a `frobnicate` message is ignored and `ping` still
answers `pong` afterwards. -/
theorem unknown_type_silently_ignored_w :
    handle_message "a" (.parsed [("type", JVal.jstr "frobnicate")]) []
        ⟨["a"], [], [(JVal.jstr "r", ["a"])]⟩
      = (⟨["a"], [], [(JVal.jstr "r", ["a"])]⟩, [])
    ∧ handle_message "a" (.parsed [("type", JVal.jstr "ping")]) []
        ⟨["a"], [], [(JVal.jstr "r", ["a"])]⟩
      = (⟨["a"], [], [(JVal.jstr "r", ["a"])]⟩,
          [("a", [("type", JVal.jstr "pong")])]) :=
  unknown_type_silently_ignored "a" [("type", JVal.jstr "frobnicate")] []
    ⟨["a"], [], [(JVal.jstr "r", ["a"])]⟩
    (by decide) (by decide) (by decide) (by decide)

/-- C8: an inbound frame whose body is not parseable as JSON is answered
to the originating connection with an `error` message carrying a message
string; registry, player, and room state are unchanged, and the
connection keeps processing — a following `ping` is still answered with
`pong`. -/
theorem malformed_input_error_reply (cid : String) (fails : List String) (s : ManagerState) :
    handle_message cid .malformed fails s
      = (s, [(cid, [("type", .jstr "error"), ("message", .jstr "Invalid JSON format")])])
    ∧ handle_message cid (.parsed [("type", .jstr "ping")]) fails s
        = (s, [(cid, [("type", .jstr "pong")])]) := by
  constructor
  · rfl
  · simp [handle_message, getField]

/-- C9: a room map entry is implicitly created on the first join to a
room id and is never destroyed afterwards: every operation of the
manager — further joins, leaves (including the last member leaving),
disconnects, broadcasts, and whole processor steps — preserves the
presence of the room's key, so emptied rooms persist with an empty
member set. -/
theorem rooms_never_destroyed (cid2 : String) (rid rid2 : JVal) (msg : Message)
    (exclude : Option String) (inb : Inbound) (fails : List String) (s : ManagerState)
    (h : roomHas rid s = true) :
    roomHas rid2 (join_room cid2 rid2 s) = true
    ∧ roomHas rid (join_room cid2 rid2 s) = true
    ∧ roomHas rid (leave_room cid2 rid2 s) = true
    ∧ roomHas rid (disconnect cid2 s) = true
    ∧ roomHas rid (broadcast_to_room msg rid2 exclude fails s).1 = true
    ∧ roomHas rid (handle_message cid2 inb fails s).1 = true := by
  refine ⟨?_, ?_, ?_, ?_, ?_, ?_⟩
  · obtain ⟨ms, h1, _⟩ := lookupRoom_addToRoom_self cid2 rid2 s.rooms
    show (lookupRoom rid2 (addToRoom cid2 rid2 s.rooms)).isSome = true
    rw [h1]
    rfl
  · exact lookupRoom_addToRoom_isSome cid2 rid2 rid s.rooms h
  · exact lookupRoom_removeFromRoom_isSome cid2 rid2 rid s.rooms h
  · rw [show roomHas rid (disconnect cid2 s)
        = (lookupRoom rid (disconnect cid2 s).rooms).isSome from rfl,
      disconnect_rooms_isSome]
    exact h
  · exact broadcast_rooms_isSome msg rid2 rid exclude fails s h
  · exact handle_rooms_isSome cid2 inb fails s rid h

/-- C9 (witness): the sole member of room `r` leaves; the room's key
survives (with an empty member set). -/
theorem rooms_never_destroyed_w :
    roomHas (JVal.jstr "r")
        (leave_room "a" (JVal.jstr "r") ⟨["a"], [("a", JVal.jstr "pa")],
          [(JVal.jstr "r", ["a"])]⟩) = true :=
  (rooms_never_destroyed "a" (JVal.jstr "r") (JVal.jstr "r") [] none .malformed []
      ⟨["a"], [("a", JVal.jstr "pa")], [(JVal.jstr "r", ["a"])]⟩ (by decide)).2.2.1

/-- C10: no membership precondition is checked.  A connection that never
joined a room can still (1) inject a `game_state` event that is relayed
to all of the room's live members, and (2) issue a `leave_room` for that
room, which is answered with `room_left` and — since a player id is on
record for the connection — broadcast as `player_left` to the room's
members. -/
theorem no_membership_precondition (cid : String) (m m2 : Message) (rid rid2 pid : JVal)
    (fails : List String) (s : ManagerState) (ms ms2 : List String)
    (ht : getField m "type" = some (.jstr "game_state"))
    (hr : getField m "roomId" = some rid) (htr : rid.truthy = true)
    (hms : lookupRoom rid s.rooms = some ms) (hnm : cid ∉ ms)
    (ht2 : getField m2 "type" = some (.jstr "leave_room"))
    (hr2 : getField m2 "roomId" = some rid2) (htr2 : rid2.truthy = true)
    (hms2 : lookupRoom rid2 s.rooms = some ms2) (hnm2 : cid ∉ ms2)
    (hp : lookupPlayer cid s.connection_players = some pid) (hpt : pid.truthy = true) :
    (∀ c, c ∈ ms → c ∈ s.active_connections → c ∉ fails →
        (c, m) ∈ (handle_message cid (.parsed m) fails s).2)
    ∧ (cid, [("type", .jstr "room_left"), ("roomId", rid2)])
        ∈ (handle_message cid (.parsed m2) fails s).2
    ∧ (∀ c, c ∈ ms2 → c ∈ s.active_connections → c ∉ fails →
        (c, [("type", .jstr "player_left"), ("playerId", pid), ("roomId", rid2)])
          ∈ (handle_message cid (.parsed m2) fails s).2) := by
  have hlr : lookupRoom rid2 (leave_room cid rid2 s).rooms = some ms2 := by
    show lookupRoom rid2 (removeFromRoom cid rid2 s.rooms) = some ms2
    rw [lookupRoom_removeFromRoom, if_pos rfl, hms2, Option.map_some',
      filter_ne_of_not_mem cid ms2 hnm2]
  refine ⟨?_, ?_, ?_⟩
  · intro c hc hcact hcnf
    rw [handle_game_state cid m rid fails s ht hr htr]
    exact (mem_broadcast_deliveries m rid (some cid) fails s c m).mpr
      ⟨rfl, ⟨ms, hms, hc⟩, fun hcon => hnm ((Option.some.inj hcon) ▸ hc), hcact, hcnf⟩
  · rw [handle_leave_room cid m2 rid2 pid fails s ht2 hr2 htr2 hp hpt]
    exact List.mem_cons_self _ _
  · intro c hc hcact hcnf
    rw [handle_leave_room cid m2 rid2 pid fails s ht2 hr2 htr2 hp hpt]
    refine List.mem_cons_of_mem _ ?_
    exact (mem_broadcast_deliveries _ rid2 (some cid) fails (leave_room cid rid2 s) c _).mpr
      ⟨rfl, ⟨ms2, hlr, hc⟩, fun hcon => hnm2 ((Option.some.inj hcon) ▸ hc), hcact, hcnf⟩

/-- C10 (witness): `c` has a player id on record but never joined room
`r`; its `leave_room` for `r` makes member `b` receive `player_left`. -/
theorem no_membership_precondition_w :
    ("b", [("type", JVal.jstr "player_left"), ("playerId", JVal.jstr "pc"),
        ("roomId", JVal.jstr "r")])
      ∈ (handle_message "c"
          (.parsed [("type", JVal.jstr "leave_room"), ("roomId", JVal.jstr "r")]) []
          ⟨["a", "b", "c"], [("c", JVal.jstr "pc")], [(JVal.jstr "r", ["a", "b"])]⟩).2 :=
  (no_membership_precondition "c"
      [("type", JVal.jstr "game_state"), ("roomId", JVal.jstr "r")]
      [("type", JVal.jstr "leave_room"), ("roomId", JVal.jstr "r")]
      (JVal.jstr "r") (JVal.jstr "r") (JVal.jstr "pc") []
      ⟨["a", "b", "c"], [("c", JVal.jstr "pc")], [(JVal.jstr "r", ["a", "b"])]⟩
      ["a", "b"] ["a", "b"]
      (by decide) (by decide) (by decide) (by decide) (by decide)
      (by decide) (by decide) (by decide) (by decide) (by decide)
      (by decide) (by decide)).2.2
    "b" (by decide) (by decide) (by decide)

end FPSWS
